import Mathlib

/-!
Verification of the ZEKO Adaptive Learning & Pronunciation Scoring Engine.

Shallow embedding of `backend/ai_models/adaptive_learning.py` and
`backend/ai_models/speech_model.py`.  Python floats are modelled as exact
rationals (`ℚ`); Python lists as Lean lists; Python dicts that may miss a
key as records with `Option` fields.  The numeric square root used by
`np.std` (a floating-point operation with no exact rational counterpart)
is threaded through as an explicit parameter `sqrtQ`; no claim depends on
its value.  The `np.random.choice` sampler is threaded through as an
explicit oracle `pick`; theorems constrain it by the contract of
sampling-without-replacement (a length-`k` subpermutation of the pool).
The sequence matcher is modelled after `difflib.SequenceMatcher(None, a,
b)` in full, including the `autojunk` popularity purge of the
dynamic-programming index and the popularity-blind extension loops of
`find_longest_match`; the model agrees exactly with CPython on strings
both below and above the 200-character autojunk threshold.
-/

/-- Arithmetic mean of a list of rationals (`np.mean`); `0` on the empty
list, which is only ever used behind the source's own non-emptiness
guards. -/
def qmean (l : List ℚ) : ℚ := l.sum / l.length

/-- Python slice `l[-n:]`: the last `n` elements (all of them when
`l.length ≤ n`). -/
def takeLast {α : Type} (n : Nat) (l : List α) : List α := l.drop (l.length - n)

/-- `DifficultyLevel` enum from `adaptive_learning.py`. -/
inductive DifficultyLevel
  | very_easy | easy | medium | hard | very_hard
deriving DecidableEq, Repr

/-- `LearningStyle` enum from `adaptive_learning.py`. -/
inductive LearningStyle
  | visual | auditory | kinesthetic | mixed
deriving DecidableEq, Repr

/-- `LearningSession` dataclass.  The timestamp is abstracted to a `Nat`
(no claim touches it). -/
structure LearningSession where
  user_id : String
  session_id : String
  words_practiced : List String
  scores : List ℚ
  difficulty_level : DifficultyLevel
  session_duration : ℚ
  mistakes : List String
  timestamp : Nat
  engagement_level : ℚ
deriving DecidableEq, Repr

/-- `UserProfile` dataclass. -/
structure UserProfile where
  user_id : String
  age : Nat
  current_level : DifficultyLevel
  learning_style : LearningStyle
  attention_span : ℚ
  preferred_session_time : String
  strengths : List String
  weaknesses : List String
  motivation_factors : List String
  last_updated : Nat
deriving DecidableEq, Repr

/-- `AdaptiveRecommendation` dataclass. -/
structure AdaptiveRecommendation where
  next_words : List String
  difficulty_adjustment : String
  recommended_break : Bool
  session_duration_suggestion : ℚ
  encouragement_strategy : String
  character_interaction : String
  learning_activities : List String
deriving DecidableEq, Repr

/-- Result dict of `analyze_session_performance`.  The Python code returns
a dict that, in the zero-attempt branch, lacks the `engagement_level`
key; that key is therefore an `Option` here (`none` = key absent). -/
structure SessionMetrics where
  average_score : ℚ
  consistency : ℚ
  improvement_trend : ℚ
  difficulty_appropriateness : ℚ
  engagement_level : Option ℚ
deriving DecidableEq, Repr

/-- Population variance of a score list (`np.std(scores) ** 2`). -/
def varianceQ (scores : List ℚ) : ℚ :=
  qmean (scores.map (fun s => (s - qmean scores) ^ 2))

/-- Least-squares slope of the best-fit line over `x = 0, 1, ...`
(`np.polyfit(x, scores, 1)[0]`), an exact rational. -/
def slopeQ (scores : List ℚ) : ℚ :=
  let n : ℚ := scores.length
  let xs : List ℚ := (List.range scores.length).map (fun i => (i : ℚ))
  let sx := xs.sum
  let sy := scores.sum
  let sxy := ((xs.zip scores).map (fun p => p.1 * p.2)).sum
  let sxx := (xs.map (fun x => x ^ 2)).sum
  (n * sxy - sx * sy) / (n * sxx - sx ^ 2)

/-- `AdaptiveLearningModel.analyze_session_performance`.  `sqrtQ` stands
for the floating-point square root inside `np.std`. -/
def analyzeSessionPerformance (sqrtQ : ℚ → ℚ) (session : LearningSession) :
    SessionMetrics :=
  if session.scores = [] then
    { average_score := 0, consistency := 0, improvement_trend := 0,
      difficulty_appropriateness := 0.5, engagement_level := none }
  else
    let scores := session.scores
    let average_score := qmean scores
    let score_std := if 1 < scores.length then sqrtQ (varianceQ scores) else 0
    let consistency := max 0 (1 - score_std)
    let improvement_trend :=
      if 1 < scores.length then max (-1) (min 1 (slopeQ scores * 10)) else 0
    let difficulty_appropriateness : ℚ :=
      if 0.9 < average_score then 0.3
      else if 0.7 < average_score then 1.0
      else if 0.5 < average_score then 0.8
      else if 0.3 < average_score then 0.5
      else 0.2
    { average_score := average_score, consistency := consistency,
      improvement_trend := improvement_trend,
      difficulty_appropriateness := difficulty_appropriateness,
      engagement_level := some session.engagement_level }

/-- The list comprehension `[m['engagement_level'] for m in metrics]`:
succeeds only when every metrics dict has the key, otherwise the
comprehension raises `KeyError` (modelled as `none`). -/
def collectEngagements : List SessionMetrics → Option (List ℚ)
  | [] => some []
  | m :: ms =>
    match m.engagement_level, collectEngagements ms with
    | some e, some es => some (e :: es)
    | _, _ => none

/-- `AdaptiveLearningModel.determine_difficulty_adjustment`.  The
`current_difficulty` argument is unused, exactly as in the source.  The
`KeyError` raised while averaging `engagement_level` over a metrics dict
missing that key is caught by the function's `except` clause, which
returns `"maintain"`. -/
def determineDifficultyAdjustment (sqrtQ : ℚ → ℚ)
    (sessions : List LearningSession) (_current_difficulty : DifficultyLevel) :
    String :=
  if sessions = [] then "maintain"
  else
    let recent_sessions := takeLast 5 sessions
    let performance_metrics := recent_sessions.map (analyzeSessionPerformance sqrtQ)
    let avg_score := qmean (performance_metrics.map (·.average_score))
    let avg_difficulty_appropriateness :=
      qmean (performance_metrics.map (·.difficulty_appropriateness))
    match collectEngagements performance_metrics with
    | none => "maintain"
    | some engs =>
      let avg_engagement := qmean engs
      if 0.85 ≤ avg_score ∧ 0.7 ≤ avg_engagement ∧
          avg_difficulty_appropriateness < 0.5 then "increase"
      else if avg_score ≤ 0.4 ∨ avg_engagement ≤ 0.3 then "decrease"
      else if 0.6 ≤ avg_score ∧ avg_score ≤ 0.8 ∧ 0.6 ≤ avg_engagement then
        "maintain"
      else "maintain"

/-- One step of building the `word_performance` dict: append `sc` to the
entry of word `w` (Python dict keeps insertion order; a new key goes to
the end). -/
def addScore (wp : List (String × List ℚ)) (w : String) (sc : ℚ) :
    List (String × List ℚ) :=
  match wp with
  | [] => [(w, [sc])]
  | (w', scs) :: rest =>
    if w' = w then (w', scs ++ [sc]) :: rest else (w', scs) :: addScore rest w sc

/-- The `word_performance` dict of `update_user_profile`: per-word score
lists accumulated over `zip(session.words_practiced, session.scores)` of
the examined sessions, in insertion order. -/
def wordPerformanceOf (examined : List LearningSession) : List (String × List ℚ) :=
  examined.foldl
    (fun wp s =>
      (s.words_practiced.zip s.scores).foldl (fun wp p => addScore wp p.1 p.2) wp)
    []

/-- `AdaptiveLearningModel.update_user_profile`.  `now` stands for
`datetime.now()`.  The body raises no exception on well-typed inputs, so
the `except` branch (return the input profile unchanged) is unreachable
here; the `if not sessions` early return is modelled explicitly. -/
def updateUserProfile (now : Nat) (profile : UserProfile)
    (sessions : List LearningSession) : UserProfile :=
  if sessions = [] then profile
  else
    let examined := takeLast 10 sessions
    let recent_durations := examined.map (·.session_duration)
    let word_performance := wordPerformanceOf examined
    let attention_span :=
      if recent_durations ≠ [] then qmean recent_durations else profile.attention_span
    let strengths :=
      (word_performance.filter (fun e => 0.8 ≤ qmean e.2)).map (·.1)
    let weaknesses :=
      (word_performance.filter
        (fun e => ¬ 0.8 ≤ qmean e.2 ∧ qmean e.2 ≤ 0.5)).map (·.1)
    let avg_engagement := qmean ((takeLast 5 sessions).map (·.engagement_level))
    let learning_style :=
      if 0.8 < avg_engagement then profile.learning_style
      else if profile.learning_style ≠ LearningStyle.mixed then LearningStyle.mixed
      else profile.learning_style
    { profile with
      attention_span := attention_span,
      strengths := takeLast 20 strengths,
      weaknesses := takeLast 20 weaknesses,
      learning_style := learning_style,
      last_updated := now }

/-- `self.word_categories`: the category → words table per difficulty
level, in source order. -/
def wordCategories : DifficultyLevel → List (String × List String)
  | .very_easy =>
    [("family", ["mama", "papa", "kakak", "adik"]),
     ("basic_needs", ["makan", "minum", "tidur", "main"]),
     ("simple_objects", ["bola", "air", "nasi", "susu"]),
     ("actions", ["duduk", "berdiri", "jalan", "lari"])]
  | .easy =>
    [("family", ["keluarga", "orangtua", "saudara", "nenek", "kakek"]),
     ("school", ["sekolah", "guru", "teman", "buku", "pensil"]),
     ("home", ["rumah", "kamar", "dapur", "kursi", "meja"]),
     ("activities", ["bermain", "belajar", "membaca", "menulis"])]
  | .medium =>
    [("emotions", ["senang", "sedih", "marah", "takut", "excited"]),
     ("descriptions", ["besar", "kecil", "tinggi", "pendek", "cantik"]),
     ("complex_actions", ["berlari", "melompat", "bercerita", "menyanyi"]),
     ("abstract", ["impian", "harapan", "cita-cita", "kreativitas"])]
  | .hard =>
    [("academic", ["pembelajaran", "pengetahuan", "eksperimen", "observasi"]),
     ("social", ["komunikasi", "kolaborasi", "kerjasama", "kepemimpinan"]),
     ("complex_concepts", ["perpustakaan", "matematika", "kreativitas"]),
     ("advanced_emotions", ["antusiasme", "kecemasan", "kepercayaan"])]
  | .very_hard =>
    [("advanced_academic", ["metamorfosis", "fotosintesis", "gravitasi"]),
     ("complex_social", ["empati", "toleransi", "demokratis", "pluralisme"]),
     ("abstract_concepts", ["filosofi", "metodologi", "epistemologi"]),
     ("scientific", ["mikroorganisme", "ekosistem", "biodiversitas"])]

/-- `all_words` of `select_next_words`: concatenation of the category
word lists (with the dead fallback-to-easy branch for an empty table kept
from the source). -/
def allWordsFor (difficulty : DifficultyLevel) : List String :=
  let available_categories := wordCategories difficulty
  let available_categories :=
    if available_categories = [] then wordCategories .easy else available_categories
  available_categories.foldl (fun acc c => acc ++ c.2) []

/-- `candidate_words`: the word universe minus mastered words. -/
def candidateWords (profile : UserProfile) (difficulty : DifficultyLevel) :
    List String :=
  (allWordsFor difficulty).filter (fun w => w ∉ profile.strengths)

/-- `priority_words`: weak words still in the candidate pool. -/
def priorityWords (profile : UserProfile) (difficulty : DifficultyLevel) :
    List String :=
  profile.weaknesses.filter (fun w => w ∈ candidateWords profile difficulty)

/-- `AdaptiveLearningModel.select_next_words`.  `pick pool k` stands for
`np.random.choice(pool, k, replace=False)`; theorems constrain it to
return a length-`k` subpermutation of `pool`.  On well-typed inputs the
body raises nothing (every sample size is bounded by its pool), so the
`except` fallback vocabulary is unreachable here. -/
def selectNextWords (pick : List String → Nat → List String)
    (profile : UserProfile) (difficulty : DifficultyLevel) (count : Nat) :
    List String :=
  let all_words := allWordsFor difficulty
  let candidate_words := candidateWords profile difficulty
  let priority_words := priorityWords profile difficulty
  let review_count := min priority_words.length (max 1 (count / 3))
  let selected₁ := if priority_words ≠ [] then pick priority_words review_count else []
  let remaining_count := count - selected₁.length
  let new_words := candidate_words.filter (fun w => w ∉ selected₁)
  let selected₂ :=
    if remaining_count ≤ new_words.length then selected₁ ++ pick new_words remaining_count
    else
      let s := selected₁ ++ new_words
      if s.length < count then
        let additional_words := all_words.filter (fun w => w ∉ s)
        if additional_words ≠ [] then
          s ++ pick additional_words (min (count - s.length) additional_words.length)
        else s
      else s
  selected₂.take count

/-- `self.difficulty_progression` (a total map, so `dict.get(level,
level)` never falls back). -/
def difficultyProgression : DifficultyLevel → DifficultyLevel
  | .very_easy => .easy
  | .easy => .medium
  | .medium => .hard
  | .hard => .very_hard
  | .very_hard => .very_hard

/-- `self.difficulty_regression`. -/
def difficultyRegression : DifficultyLevel → DifficultyLevel
  | .very_hard => .hard
  | .hard => .medium
  | .medium => .easy
  | .easy => .very_easy
  | .very_easy => .very_easy

/-- `self.learning_activities` per learning style. -/
def learningActivitiesFor : LearningStyle → List String
  | .visual =>
    ["Lihat gambar sambil mengucapkan kata", "Buat kartu kata bergambar",
     "Tonton video pengucapan", "Mainkan tebak gambar"]
  | .auditory =>
    ["Dengarkan contoh berkali-kali", "Nyanyikan kata-kata",
     "Rekam suara sendiri", "Mainkan permainan rima"]
  | .kinesthetic =>
    ["Gerakan tangan saat mengucapkan", "Berjalan sambil berlatih",
     "Mainkan peran dengan kata", "Buat kata dengan gestur"]
  | .mixed =>
    ["Kombinasi visual dan audio", "Bergerak sambil melihat dan mendengar",
     "Variasi aktivitas setiap sesi", "Eksplorasi multi-sensori"]

/-- The `character_interactions` dict lookup with its `.get` default. -/
def characterInteractionFor (encouragement : String) : String :=
  if encouragement = "celebration" then
    "Imron dan Siti akan memberikan pujian khusus! 🎉"
  else if encouragement = "positive_reinforcement" then
    "Imron akan memberikan high-five virtual! ✋"
  else if encouragement = "gentle_motivation" then
    "Siti akan memberikan semangat dengan lagu! 🎵"
  else if encouragement = "supportive_comfort" then
    "Imron dan Siti akan memberikan pelukan virtual! 🤗"
  else if encouragement = "welcome_introduction" then
    "Imron dan Siti akan memperkenalkan diri! 👋"
  else "Imron dan Siti siap membantu! 😊"

/-- The fallback recommendation of the `except` clause of
`generate_adaptive_recommendation`. -/
def fallbackRecommendation : AdaptiveRecommendation :=
  { next_words := ["mama", "papa", "air"],
    difficulty_adjustment := "maintain",
    recommended_break := false,
    session_duration_suggestion := 10,
    encouragement_strategy := "positive_reinforcement",
    character_interaction := "Imron dan Siti siap membantu! 😊",
    learning_activities :=
      ["Dengarkan contoh dengan baik", "Ucapkan pelan-pelan", "Jangan terburu-buru"] }

/-- The `try` body of `generate_adaptive_recommendation`, as an explicit
`Except` computation: any Python exception raised by a step of the chain
is an `Except.error`.  On well-typed inputs every step below is total,
so the body ends in `Except.ok`. -/
def tryGenerateRecommendation (sqrtQ : ℚ → ℚ)
    (pick : List String → Nat → List String) (profile : UserProfile)
    (sessions : List LearningSession) : Except String AdaptiveRecommendation :=
  let difficulty_adjustment :=
    determineDifficultyAdjustment sqrtQ sessions profile.current_level
  let new_difficulty :=
    if difficulty_adjustment = "increase" then difficultyProgression profile.current_level
    else if difficulty_adjustment = "decrease" then
      difficultyRegression profile.current_level
    else profile.current_level
  let next_words := selectNextWords pick profile new_difficulty 5
  let recent_sessions := if 3 ≤ sessions.length then takeLast 3 sessions else sessions
  let avg_recent_duration :=
    if recent_sessions ≠ [] then qmean (recent_sessions.map (·.session_duration)) else 0
  let recommended_break := profile.attention_span * 1.5 < avg_recent_duration
  let base_duration : ℚ :=
    if profile.age ≤ 6 then 5 else if profile.age ≤ 8 then 10 else 15
  let suggested_duration :=
    if 0 < profile.attention_span then min base_duration (profile.attention_span * 0.8)
    else base_duration
  let encouragement :=
    match sessions.getLast? with
    | some last_session =>
      let avg_score := if last_session.scores ≠ [] then qmean last_session.scores else 0
      if 0.8 ≤ avg_score then "celebration"
      else if 0.6 ≤ avg_score then "positive_reinforcement"
      else if 0.4 ≤ avg_score then "gentle_motivation"
      else "supportive_comfort"
    | none => "welcome_introduction"
  let character_interaction := characterInteractionFor encouragement
  let learning_activities := learningActivitiesFor profile.learning_style
  Except.ok
    { next_words := next_words,
      difficulty_adjustment := difficulty_adjustment,
      recommended_break := recommended_break,
      session_duration_suggestion := suggested_duration,
      encouragement_strategy := encouragement,
      character_interaction := character_interaction,
      learning_activities := learning_activities.take 3 }

/-- The `except` clause of `generate_adaptive_recommendation`: any
internal failure degrades to the fixed fallback recommendation. -/
def recommendationHandler (r : Except String AdaptiveRecommendation) :
    AdaptiveRecommendation :=
  match r with
  | .ok rec => rec
  | .error _ => fallbackRecommendation

/-- `AdaptiveLearningModel.generate_adaptive_recommendation`: the `try`
body guarded by the fallback handler. -/
def generateAdaptiveRecommendation (sqrtQ : ℚ → ℚ)
    (pick : List String → Nat → List String) (profile : UserProfile)
    (sessions : List LearningSession) : AdaptiveRecommendation :=
  recommendationHandler (tryGenerateRecommendation sqrtQ pick profile sessions)

/-- `PronunciationResult` dataclass from `speech_model.py`. -/
structure PronunciationResult where
  word : String
  target_word : String
  similarity_score : ℚ
  phonetic_accuracy : ℚ
  confidence : ℚ
  feedback : String
  suggestions : List String
deriving DecidableEq, Repr

/-- Per-word entry of a transcription result. -/
structure TranscriptionWord where
  word : String
  confidence : ℚ
deriving DecidableEq, Repr

/-- The dict returned by `transcribe_audio` (the transcription provider
boundary): the no-speech and exception paths carry an `error` key. -/
structure TranscriptionResult where
  transcript : String
  confidence : ℚ
  words : List TranscriptionWord
  error : Option String
deriving DecidableEq, Repr

/-- `SpeechAnalysis` dataclass. -/
structure SpeechAnalysis where
  transcript : String
  confidence : ℚ
  pronunciation_results : List PronunciationResult
  overall_score : ℚ
  feedback : String
  recommendations : List String
deriving DecidableEq, Repr

/-- The sentinel `transcribe_audio` returns when the provider detects no
speech (`if not response.results`). -/
def noSpeechResult : TranscriptionResult :=
  { transcript := "", confidence := 0, words := [],
    error := some "No speech detected" }

/-- Length of the common prefix of two character lists. -/
def commonPrefixLen : List Char → List Char → Nat
  | a :: as, b :: bs => if a = b then commonPrefixLen as bs + 1 else 0
  | _, _ => 0

/-- The autojunk heuristic of `difflib.SequenceMatcher.__chain_b`: when
the second sequence has at least 200 elements, every element occurring
more than `len(b) // 100 + 1` times is "popular" and is purged from the
`b2j` index, so the dynamic-programming scan of `find_longest_match`
never matches it.  Popularity is computed once from the full second
sequence and is shared by every recursive sub-range call. -/
def isPopular (b : List Char) (c : Char) : Bool :=
  decide (200 ≤ b.length) && decide (b.length / 100 + 1 < b.count c)

/-- Length of the common prefix of two character lists restricted to
non-popular second-sequence characters: the length of the longest
matching run starting at a given pair of positions that the `b2j`-based
dynamic-programming scan of `find_longest_match` can see (a popular
character is absent from `b2j` and breaks the chain). -/
def nonPopularPrefixLen (pop : Char → Bool) : List Char → List Char → Nat
  | x :: xs, y :: ys =>
    if x = y ∧ pop y = false then nonPopularPrefixLen pop xs ys + 1 else 0
  | _, _ => 0

/-- The dynamic-programming core of
`difflib.SequenceMatcher.find_longest_match`: the longest matching
block `(i, j, k)` consisting solely of non-popular characters, ties
resolved to the smallest `i`, then the smallest `j` (difflib scans
match end cells row by row and updates only on strict improvement,
which picks exactly this block). -/
def longestMatchCore (pop : Char → Bool) (a b : List Char) : Nat × Nat × Nat :=
  (List.range a.length).foldl
    (fun best i =>
      (List.range b.length).foldl
        (fun best j =>
          let k := nonPopularPrefixLen pop (a.drop i) (b.drop j)
          if best.2.2 < k then (i, j, k) else best)
        best)
    (0, 0, 0)

/-- The extension step of `find_longest_match`: the block found by the
dynamic-programming scan is widened left, then right, while characters
are equal and the second-sequence character is not junk.  With
`isjunk=None` the junk set `bjunk` is empty (autojunk populates the
separate `bpopular` set, which the extension loops do NOT consult), so
the extension crosses popular characters freely, and the trailing
junk-extension loops of the source are no-ops.  In particular two
identical sequences always end up with one full-length block even when
every character is popular. -/
def extendMatch (a b : List Char) (m : Nat × Nat × Nat) : Nat × Nat × Nat :=
  let l := commonPrefixLen (a.take m.1).reverse (b.take m.2.1).reverse
  let i := m.1 - l
  let j := m.2.1 - l
  let k := m.2.2 + l
  let r := commonPrefixLen (a.drop (i + k)) (b.drop (j + k))
  (i, j, k + r)

/-- `difflib.SequenceMatcher.find_longest_match` with `isjunk=None` and
the default `autojunk=True`: the popularity-restricted
dynamic-programming block, widened by the popularity-blind extension
loops. -/
def longestMatch (pop : Char → Bool) (a b : List Char) : Nat × Nat × Nat :=
  extendMatch a b (longestMatchCore pop a b)

/-- Total matched characters of `difflib.SequenceMatcher.
get_matching_blocks`, with explicit fuel: the longest block plus,
recursively, the best blocks strictly to its left and strictly to its
right, the popularity predicate being fixed once for the whole
recursion.  A nonempty block shortens the left string strictly on both
sides of the recursion, so `a.length` fuel units always suffice. -/
def matchTotalFuel (pop : Char → Bool) : Nat → List Char → List Char → Nat
  | 0, _, _ => 0
  | Nat.succ fuel, a, b =>
    let m := longestMatch pop a b
    if m.2.2 = 0 then 0
    else
      matchTotalFuel pop fuel (a.take m.1) (b.take m.2.1) + m.2.2 +
        matchTotalFuel pop fuel (a.drop (m.1 + m.2.2)) (b.drop (m.2.1 + m.2.2))

/-- Total matched characters of the matching blocks of
`difflib.SequenceMatcher(None, a, b)`, the popularity set being chained
once from the full second sequence. -/
def matchTotal (a b : List Char) : Nat :=
  matchTotalFuel (isPopular b) a.length a b

/-- `difflib.SequenceMatcher.ratio`: `2 * M / T`, and `1.0` when both
strings are empty (`T = 0`). -/
def similarityRatio (a b : List Char) : ℚ :=
  if a.length + b.length = 0 then 1
  else 2 * (matchTotal a b : ℚ) / ((a.length : ℚ) + (b.length : ℚ))

/-- Characters kept by `re.sub(r'[^\w\s]', '', text)`: word characters
(alphanumeric or underscore) and whitespace.  The inputs in scope are
ASCII Indonesian words, for which this matches Python's `\w`/`\s`. -/
def pyIsWordOrSpace (c : Char) : Bool := c.isAlphanum || c = '_' || c.isWhitespace

/-- `re.sub(r'\s+', ' ', text)`: collapse each maximal whitespace run
into one space; the flag records whether the scan is inside a run. -/
def collapseSpacesAux : Bool → List Char → List Char
  | _, [] => []
  | inRun, c :: rest =>
    if c.isWhitespace then
      if inRun then collapseSpacesAux true rest
      else ' ' :: collapseSpacesAux true rest
    else c :: collapseSpacesAux false rest

/-- `re.sub(r'\s+', ' ', text)`. -/
def collapseSpaces (l : List Char) : List Char := collapseSpacesAux false l

/-- `str.strip()`: drop leading and trailing whitespace. -/
def stripChars (l : List Char) : List Char :=
  (((l.dropWhile Char.isWhitespace).reverse.dropWhile Char.isWhitespace)).reverse

/-- `SpeechRecognitionModel.normalize_text`. -/
def normalizeText (t : List Char) : List Char :=
  stripChars (collapseSpaces (t.filter pyIsWordOrSpace))

/-- `str.replace(pat, rep)` with explicit fuel: replace every occurrence
of `pat`, left-to-right, without rescanning the replacement text.  One
fuel unit is spent per scanned position, and the scan advances by at
least one position per step, so `s.length` units always suffice. -/
def replaceAllFuel (pat rep : List Char) : Nat → List Char → List Char
  | 0, s => s
  | _, [] => []
  | Nat.succ fuel, c :: rest =>
    if pat ≠ [] ∧ pat.isPrefixOf (c :: rest) then
      rep ++ replaceAllFuel pat rep fuel ((c :: rest).drop pat.length)
    else c :: replaceAllFuel pat rep fuel rest

/-- `str.replace(pat, rep)`. -/
def replaceAll (pat rep s : List Char) : List Char :=
  replaceAllFuel pat rep s.length s

/-- `self.phonetic_rules`, in dict insertion order. -/
def phoneticRules : List (List Char × List Char) :=
  [([ 't', 'h'], [ 't']), ([ 'f'], [ 'p']), ([ 'v'], [ 'b']),
   ([ 'z'], [ 's']), ([ 'c', 'h'], [ 'c'])]

/-- `SpeechRecognitionModel.apply_phonetic_rules`. -/
def applyPhoneticRules (w : List Char) : List Char :=
  phoneticRules.foldl (fun acc r => replaceAll r.1 r.2 acc) w

/-- The normalized, lowercased form both comparison paths start from
(`self.normalize_text(word.lower())`). -/
def normalizedOf (w : String) : List Char :=
  normalizeText (w.data.map Char.toLower)

/-- `SpeechRecognitionModel.calculate_word_similarity`: the better of the
literal and the phonetically adjusted sequence-similarity ratio. -/
def calculateWordSimilarity (spoken_word target_word : String) : ℚ :=
  let spoken := normalizedOf spoken_word
  let target := normalizedOf target_word
  let similarity := similarityRatio spoken target
  let phonetic_spoken := applyPhoneticRules spoken
  let phonetic_target := applyPhoneticRules target
  let phonetic_similarity := similarityRatio phonetic_spoken phonetic_target
  max similarity phonetic_similarity

/-- `SpeechRecognitionModel.generate_pronunciation_feedback`. -/
def generatePronunciationFeedback (_spoken _target : String)
    (similarity confidence : ℚ) : String × List String :=
  let base : String × List String :=
    if 0.9 ≤ similarity then
      ("Bagus sekali! Pengucapan sempurna! ðŸŒŸ", [])
    else if 0.8 ≤ similarity then
      ("Bagus! Pengucapan sudah sangat baik! ðŸ‘",
       ["Coba ucapkan sedikit lebih jelas lagi"])
    else if 0.6 ≤ similarity then
      ("Lumayan bagus! Mari coba lagi dengan lebih pelan ðŸ˜Š",
       ["Ucapkan kata dengan lebih pelan", "Perhatikan setiap suku kata",
        "Coba dengarkan contoh lagi"])
    else if 0.4 ≤ similarity then
      ("Belum tepat, tapi jangan menyerah! Coba lagi ya ðŸ’ª",
       ["Dengarkan contoh pengucapan yang benar", "Pecah kata menjadi suku kata",
        "Latih satu suku kata dulu", "Minta bantuan kakak atau orangtua"])
    else
      ("Ayo coba lagi! Dengarkan baik-baik contohnya ya ðŸ¤—",
       ["Dengarkan contoh berulang kali", "Tiru pengucapan persis seperti contoh",
        "Mulai dari kata yang lebih mudah dulu", "Istirahat sebentar lalu coba lagi"])
  if confidence < 0.6 then
    (base.1, base.2 ++
      ["Coba bicara lebih keras dan jelas",
       "Pastikan tidak ada suara bising di sekitar"])
  else base

/-- `SpeechRecognitionModel.analyze_pronunciation`. -/
def analyzePronunciation (spoken_word target_word : String) (confidence : ℚ) :
    PronunciationResult :=
  let similarity := calculateWordSimilarity spoken_word target_word
  let pronunciation_score := similarity * 0.7 + confidence * 0.3
  let fb := generatePronunciationFeedback spoken_word target_word similarity confidence
  { word := spoken_word, target_word := target_word,
    similarity_score := similarity, phonetic_accuracy := pronunciation_score,
    confidence := confidence, feedback := fb.1, suggestions := fb.2 }

/-- `SpeechRecognitionModel.generate_overall_feedback`. -/
def generateOverallFeedback (score : ℚ) (spoken_count target_count : Nat) :
    String × List String :=
  let base : String × List String :=
    if 0.9 ≤ score then
      ("Luar biasa! Pengucapan sangat sempurna! ðŸŒŸðŸŽ‰",
       ["Coba kata-kata yang lebih sulit"])
    else if 0.8 ≤ score then
      ("Bagus sekali! Pengucapan sudah sangat baik! ðŸ‘",
       ["Terus berlatih dengan konsisten"])
    else if 0.6 ≤ score then
      ("Lumayan bagus! Masih ada yang bisa diperbaiki ðŸ˜Š",
       ["Latih kata-kata yang masih sulit", "Dengarkan contoh lebih sering",
        "Berlatih 10-15 menit setiap hari"])
    else if 0.4 ≤ score then
      ("Perlu latihan lebih banyak, tapi sudah bagus kok! ðŸ’ª",
       ["Mulai dari kata-kata yang lebih mudah", "Berlatih dengan sabar",
        "Minta bantuan orangtua atau guru"])
    else
      ("Ayo semangat! Mari kita belajar pelan-pelan ðŸ¤—",
       ["Mulai dari kata sangat mudah", "Dengarkan contoh berulang kali",
        "Jangan terburu-buru"])
  if spoken_count < target_count then
    (base.1, base.2 ++ ["Coba ucapkan semua kata yang diminta"])
  else if target_count < spoken_count then
    (base.1, base.2 ++ ["Fokus pada kata-kata yang diminta saja"])
  else base

/-- `str.split()` on the normalized transcript: maximal nonempty runs of
non-whitespace characters. -/
def splitWordsAux (l : List Char) (acc : List Char) : List (List Char) :=
  match l with
  | [] => if acc = [] then [] else [acc.reverse]
  | c :: rest =>
    if c.isWhitespace then
      if acc = [] then splitWordsAux rest []
      else acc.reverse :: splitWordsAux rest []
    else splitWordsAux rest (c :: acc)

/-- Words of a normalized transcript. -/
def splitWords (l : List Char) : List (List Char) := splitWordsAux l []

/-- The per-word recognizer confidence used by the comprehensive
analysis: the first word-level entry matching the spoken word
case-insensitively, else the utterance confidence. -/
def wordConfidenceFor (tr : TranscriptionResult) (spoken_word : String) : ℚ :=
  if tr.words ≠ [] then
    match tr.words.find?
        (fun wi => wi.word.data.map Char.toLower = spoken_word.data.map Char.toLower) with
    | some wi => wi.confidence
    | none => tr.confidence
  else tr.confidence

/-- The `PronunciationResult` built for a target word with no transcript
word at its position. -/
def notSpokenResult (target_word : String) : PronunciationResult :=
  { word := "", target_word := target_word, similarity_score := 0,
    phonetic_accuracy := 0, confidence := 0,
    feedback := "Kata \x27" ++ target_word ++ "\x27 belum diucapkan",
    suggestions := ["Coba ucapkan kata ini juga"] }

/-- The `SpeechAnalysis` returned when the transcription result carries
an `error` key. -/
def transcriptionErrorAnalysis : SpeechAnalysis :=
  { transcript := "", confidence := 0, pronunciation_results := [],
    overall_score := 0,
    feedback := "Maaf, tidak bisa mendengar suara. Coba lagi ya! ðŸŽ¤",
    recommendations :=
      ["Pastikan mikrofon berfungsi dengan baik", "Bicara lebih keras dan jelas",
       "Kurangi suara bising di sekitar"] }

/-- `SpeechRecognitionModel.analyze_speech_comprehensive`, taken from the
point where the awaited transcription result is in hand (the
transcription provider itself is an external collaborator).  Target
words with no transcript word at their position contribute a zero-score
result; `total_score` only accumulates over spoken positions, whose
unspoken counterparts are exactly the zero summands. -/
def analyzeSpeechComprehensive (tr : TranscriptionResult)
    (target_words : List String) : SpeechAnalysis :=
  if tr.error.isSome then transcriptionErrorAnalysis
  else
    let transcript := tr.transcript
    let confidence := tr.confidence
    let spoken_words := splitWords (normalizeText transcript.data)
    let pronunciation_results := target_words.enum.map (fun p =>
      match spoken_words.get? p.1 with
      | some sw =>
        let spoken_word := String.mk sw
        analyzePronunciation spoken_word p.2 (wordConfidenceFor tr spoken_word)
      | none => notSpokenResult p.2)
    let total_score : ℚ := (pronunciation_results.map (·.phonetic_accuracy)).sum
    let overall_score : ℚ :=
      if target_words ≠ [] then total_score / (target_words.length : ℚ) else 0
    let fb := generateOverallFeedback overall_score spoken_words.length
      target_words.length
    { transcript := transcript, confidence := confidence,
      pronunciation_results := pronunciation_results,
      overall_score := overall_score, feedback := fb.1,
      recommendations := fb.2 }

/-- A minimal concrete session used to instantiate theorems. -/
def mkSession (scores : List ℚ) (engagement : ℚ) : LearningSession :=
  { user_id := "u", session_id := "s", words_practiced := [], scores := scores,
    difficulty_level := DifficultyLevel.very_easy, session_duration := 10,
    mistakes := [], timestamp := 0, engagement_level := engagement }

/-- A minimal concrete profile used to instantiate theorems. -/
def mkProfile (style : LearningStyle) (strengths weaknesses : List String) :
    UserProfile :=
  { user_id := "u", age := 7, current_level := DifficultyLevel.very_easy,
    learning_style := style, attention_span := 10,
    preferred_session_time := "afternoon", strengths := strengths,
    weaknesses := weaknesses, motivation_factors := [], last_updated := 0 }

/-- The spec scenario D session: one attempt scoring exactly `0.9`,
engagement `0.8`. -/
def scenarioDSession : LearningSession := mkSession [0.9] 0.8

/-- Five copies of the scenario D session. -/
def scenarioDSessions : List LearningSession :=
  [scenarioDSession, scenarioDSession, scenarioDSession, scenarioDSession,
   scenarioDSession]

/-- A deterministic stand-in for `np.random.choice(pool, k,
replace=False)` used to instantiate theorems: it takes the first `k`
pool entries, a legal outcome of sampling without replacement. -/
def pickTake (pool : List String) (k : Nat) : List String := pool.take k

theorem commonPrefixLen_le_left (a b : List Char) :
    commonPrefixLen a b ≤ a.length := by
  induction a generalizing b with
  | nil => simp [commonPrefixLen]
  | cons x xs ih =>
    cases b with
    | nil => simp [commonPrefixLen]
    | cons y ys =>
      simp only [commonPrefixLen]
      split
      · simpa using Nat.succ_le_succ (ih ys)
      · simp

theorem commonPrefixLen_le_right (a b : List Char) :
    commonPrefixLen a b ≤ b.length := by
  induction a generalizing b with
  | nil => simp [commonPrefixLen]
  | cons x xs ih =>
    cases b with
    | nil => simp [commonPrefixLen]
    | cons y ys =>
      simp only [commonPrefixLen]
      split
      · simpa using Nat.succ_le_succ (ih ys)
      · simp

theorem commonPrefixLen_self (a : List Char) : commonPrefixLen a a = a.length := by
  induction a with
  | nil => simp [commonPrefixLen]
  | cons x xs ih => simp [commonPrefixLen, ih]

/-- A `foldl` preserves any invariant preserved by each step. -/
theorem foldl_invariant {α β : Type} (P : α → Prop) (f : α → β → α)
    (l : List β) (init : α) (h0 : P init)
    (hstep : ∀ acc x, x ∈ l → P acc → P (f acc x)) : P (l.foldl f init) := by
  induction l generalizing init with
  | nil => simpa using h0
  | cons x xs ih =>
    simp only [List.foldl_cons]
    exact ih (f init x) (hstep init x (by simp) h0)
      (fun acc y hy hacc => hstep acc y (by simp [hy]) hacc)

/-- The block returned by `longestMatch` lies inside both strings. -/
theorem commonPrefixLen_pos_shared (a b : List Char)
    (h : 0 < commonPrefixLen a b) : ∃ c, c ∈ a ∧ c ∈ b := by
  cases a with
  | nil => simp [commonPrefixLen] at h
  | cons x xs =>
    cases b with
    | nil => simp [commonPrefixLen] at h
    | cons y ys =>
      simp only [commonPrefixLen] at h
      by_cases hxy : x = y
      · exact ⟨x, by simp, by simp [hxy]⟩
      · simp [hxy] at h

theorem commonPrefixLen_disjoint (a b : List Char)
    (h : ∀ c, c ∈ a → c ∉ b) : commonPrefixLen a b = 0 := by
  by_contra hne
  obtain ⟨c, hca, hcb⟩ := commonPrefixLen_pos_shared a b (Nat.pos_of_ne_zero hne)
  exact h c hca hcb

theorem nonPopularPrefixLen_le_left (pop : Char → Bool) (a b : List Char) :
    nonPopularPrefixLen pop a b ≤ a.length := by
  induction a generalizing b with
  | nil => simp [nonPopularPrefixLen]
  | cons x xs ih =>
    cases b with
    | nil => simp [nonPopularPrefixLen]
    | cons y ys =>
      simp only [nonPopularPrefixLen]
      split
      · simpa using Nat.succ_le_succ (ih ys)
      · simp

theorem nonPopularPrefixLen_le_diag_left (pop : Char → Bool) (a b : List Char) :
    nonPopularPrefixLen pop a b ≤ nonPopularPrefixLen pop a a := by
  induction a generalizing b with
  | nil => simp [nonPopularPrefixLen]
  | cons x xs ih =>
    cases b with
    | nil => simp [nonPopularPrefixLen]
    | cons y ys =>
      simp only [nonPopularPrefixLen]
      split
      · rename_i hcond
        rw [if_pos ⟨trivial, by rw [hcond.1]; exact hcond.2⟩]
        exact Nat.succ_le_succ (ih ys)
      · simp

theorem nonPopularPrefixLen_le_diag_right (pop : Char → Bool) (a b : List Char) :
    nonPopularPrefixLen pop a b ≤ nonPopularPrefixLen pop b b := by
  induction a generalizing b with
  | nil => simp [nonPopularPrefixLen]
  | cons x xs ih =>
    cases b with
    | nil => simp [nonPopularPrefixLen]
    | cons y ys =>
      simp only [nonPopularPrefixLen]
      split
      · rename_i hcond
        rw [if_pos ⟨trivial, hcond.2⟩]
        exact Nat.succ_le_succ (ih ys)
      · simp

theorem nonPopularPrefixLen_pos_shared (pop : Char → Bool) (a b : List Char)
    (h : 0 < nonPopularPrefixLen pop a b) : ∃ c, c ∈ a ∧ c ∈ b := by
  cases a with
  | nil => simp [nonPopularPrefixLen] at h
  | cons x xs =>
    cases b with
    | nil => simp [nonPopularPrefixLen] at h
    | cons y ys =>
      simp only [nonPopularPrefixLen] at h
      by_cases hxy : x = y ∧ pop y = false
      · exact ⟨x, by simp, by simp [hxy.1]⟩
      · rw [if_neg hxy] at h
        omega

/-- A `foldl` over `List.range n` preserves a position-indexed invariant
advanced one step per processed index. -/
theorem foldl_range_invariant {α : Type} (P : α → Nat → Prop) (f : α → Nat → α) :
    ∀ (n : Nat) (init : α), P init 0 →
    (∀ acc i, i < n → P acc i → P (f acc i) (i + 1)) →
    P ((List.range n).foldl f init) n := by
  intro n
  induction n with
  | zero =>
    intro init h0 _
    simpa using h0
  | succ m ih =>
    intro init h0 hstep
    rw [List.range_succ, List.foldl_append, List.foldl_cons, List.foldl_nil]
    exact hstep _ m (by omega)
      (ih init h0 (fun acc i hi hacc => hstep acc i (by omega) hacc))

/-- On two copies of the same string, the dynamic-programming scan of
`find_longest_match` always settles on a diagonal block: at the moment
an off-diagonal cell could win, the corresponding diagonal cell (which
dominates it in length) has already been scanned. -/
theorem longestMatchCore_self_diag (pop : Char → Bool) (s : List Char) :
    ∃ d k, longestMatchCore pop s s = (d, d, k) ∧ d + k ≤ s.length := by
  unfold longestMatchCore
  have main := foldl_range_invariant
    (P := fun (best : Nat × Nat × Nat) (i : Nat) =>
      best.1 = best.2.1 ∧ best.1 + best.2.2 ≤ s.length ∧
      ∀ d, d < i →
        nonPopularPrefixLen pop (s.drop d) (s.drop d) ≤ best.2.2)
    (f := fun best i =>
      (List.range s.length).foldl
        (fun best j =>
          let k := nonPopularPrefixLen pop (s.drop i) (s.drop j)
          if best.2.2 < k then (i, j, k) else best)
        best)
    s.length (0, 0, 0) ⟨rfl, by simp, fun d hd => by omega⟩ ?_
  · refine ⟨_, _, ?_, main.2.1⟩
    conv_lhs => rw [show ((List.range s.length).foldl _ ((0 : Nat), (0 : Nat), (0 : Nat))) =
      (((List.range s.length).foldl _ ((0 : Nat), (0 : Nat), (0 : Nat))).1,
       ((List.range s.length).foldl _ ((0 : Nat), (0 : Nat), (0 : Nat))).2.1,
       ((List.range s.length).foldl _ ((0 : Nat), (0 : Nat), (0 : Nat))).2.2) from rfl]
    rw [main.1]
  · intro acc i hi hQ
    have inner := foldl_range_invariant
      (P := fun (best : Nat × Nat × Nat) (j : Nat) =>
        best.1 = best.2.1 ∧ best.1 + best.2.2 ≤ s.length ∧
        (∀ d, d < i →
          nonPopularPrefixLen pop (s.drop d) (s.drop d) ≤ best.2.2) ∧
        (i < j → nonPopularPrefixLen pop (s.drop i) (s.drop i) ≤ best.2.2))
      (f := fun best j =>
        let k := nonPopularPrefixLen pop (s.drop i) (s.drop j)
        if best.2.2 < k then (i, j, k) else best)
      s.length acc ⟨hQ.1, hQ.2.1, hQ.2.2, by omega⟩ ?_
    · refine ⟨inner.1, inner.2.1, ?_⟩
      intro d hd
      rcases Nat.lt_succ_iff_lt_or_eq.mp hd with hd | rfl
      · exact inner.2.2.1 d hd
      · exact inner.2.2.2 hi
    · intro acc' j hj hR
      dsimp only
      by_cases hup : acc'.2.2 < nonPopularPrefixLen pop (s.drop i) (s.drop j)
      · rw [if_pos hup]
        have hij : j = i := by
          rcases Nat.lt_trichotomy j i with hji | rfl | hij
          · exfalso
            have h1 := hR.2.2.1 j hji
            have h2 := nonPopularPrefixLen_le_diag_right pop (s.drop i) (s.drop j)
            omega
          · rfl
          · exfalso
            have h1 := hR.2.2.2 hij
            have h2 := nonPopularPrefixLen_le_diag_left pop (s.drop i) (s.drop j)
            omega
        subst hij
        have hb := nonPopularPrefixLen_le_left pop (s.drop j) (s.drop j)
        simp only [List.length_drop] at hb
        refine ⟨rfl, ?_, ?_, ?_⟩
        · show j + nonPopularPrefixLen pop (s.drop j) (s.drop j) ≤ s.length
          omega
        · intro d hd
          have := hR.2.2.1 d hd
          show nonPopularPrefixLen pop (s.drop d) (s.drop d) ≤
            nonPopularPrefixLen pop (s.drop j) (s.drop j)
          omega
        · intro _
          show nonPopularPrefixLen pop (s.drop j) (s.drop j) ≤
            nonPopularPrefixLen pop (s.drop j) (s.drop j)
          exact le_refl _
      · rw [if_neg hup]
        refine ⟨hR.1, hR.2.1, hR.2.2.1, ?_⟩
        intro hij
        rcases Nat.lt_succ_iff_lt_or_eq.mp hij with hlt | rfl
        · exact hR.2.2.2 hlt
        · omega

/-- The extension loops turn any in-bounds diagonal block on two copies
of the same string into the full-length block `(0, 0, |s|)`. -/
theorem extendMatch_self_diag (s : List Char) (d k : Nat) (h : d + k ≤ s.length) :
    extendMatch s s (d, d, k) = (0, 0, s.length) := by
  unfold extendMatch
  dsimp only
  have hl : commonPrefixLen (s.take d).reverse (s.take d).reverse = d := by
    rw [commonPrefixLen_self]
    simp only [List.length_reverse, List.length_take]
    omega
  rw [hl]
  have hr : commonPrefixLen (s.drop (d - d + (k + d))) (s.drop (d - d + (k + d))) =
      s.length - (d - d + (k + d)) := by
    rw [commonPrefixLen_self, List.length_drop]
  rw [hr]
  simp only [Prod.mk.injEq]
  omega

/-- `find_longest_match` on two copies of the same string returns the
whole string, for every popularity predicate: the dynamic-programming
block is diagonal and the popularity-blind extension loops widen it to
everything (this matches CPython, where
`SequenceMatcher(None, s, s).ratio()` is `1.0` even for strings of 200
identical characters). -/
theorem longestMatch_self (pop : Char → Bool) (s : List Char) :
    longestMatch pop s s = (0, 0, s.length) := by
  obtain ⟨d, k, hdk, hb⟩ := longestMatchCore_self_diag pop s
  unfold longestMatch
  rw [hdk]
  exact extendMatch_self_diag s d k hb

/-- Strings with no shared character admit no matching block in the
dynamic-programming scan. -/
theorem longestMatchCore_disjoint (pop : Char → Bool) (a b : List Char)
    (h : ∀ c, c ∈ a → c ∉ b) : longestMatchCore pop a b = (0, 0, 0) := by
  have hz : ∀ i j, nonPopularPrefixLen pop (a.drop i) (b.drop j) = 0 := by
    intro i j
    by_contra hne
    obtain ⟨c, hca, hcb⟩ :=
      nonPopularPrefixLen_pos_shared pop _ _ (Nat.pos_of_ne_zero hne)
    exact h c (List.mem_of_mem_drop hca) (List.mem_of_mem_drop hcb)
  unfold longestMatchCore
  apply foldl_invariant (P := fun best : Nat × Nat × Nat => best = (0, 0, 0))
  · rfl
  · intro acc i _ hacc
    apply foldl_invariant (P := fun best : Nat × Nat × Nat => best = (0, 0, 0))
    · exact hacc
    · intro acc' j _ hacc'
      dsimp only
      rw [hz i j, if_neg (by omega)]
      exact hacc'

/-- Strings with no shared character admit no matching block at all:
the extension loops, too, need equal characters. -/
theorem longestMatch_disjoint (pop : Char → Bool) (a b : List Char)
    (h : ∀ c, c ∈ a → c ∉ b) : longestMatch pop a b = (0, 0, 0) := by
  unfold longestMatch
  rw [longestMatchCore_disjoint pop a b h]
  unfold extendMatch
  dsimp only
  simp [commonPrefixLen, commonPrefixLen_disjoint a b h]

theorem matchTotalFuel_nil_left (pop : Char → Bool) (fuel : Nat) (b : List Char) :
    matchTotalFuel pop fuel [] b = 0 := by
  cases fuel with
  | zero => rfl
  | succ f =>
    rw [matchTotalFuel]
    have hlm : longestMatch pop [] b = (0, 0, 0) :=
      longestMatch_disjoint pop [] b (by simp)
    simp [hlm]

theorem matchTotal_self (s : List Char) : matchTotal s s = s.length := by
  cases hs : s with
  | nil => rfl
  | cons c t =>
    rw [← hs]
    have hlen : s.length = t.length + 1 := by rw [hs]; rfl
    unfold matchTotal
    rw [hlen, matchTotalFuel]
    simp only [longestMatch_self]
    rw [if_neg (by simp [hlen])]
    have hd : List.drop (t.length + 1) s = [] := by
      rw [← hlen]
      exact List.drop_length s
    simp [matchTotalFuel_nil_left, hd, hlen]

theorem matchTotal_disjoint (a b : List Char)
    (h : ∀ c, c ∈ a → c ∉ b) : matchTotal a b = 0 := by
  unfold matchTotal
  cases hl : a.length with
  | zero => rfl
  | succ n =>
    rw [matchTotalFuel]
    simp [longestMatch_disjoint (isPopular b) a b h]

theorem similarityRatio_self (s : List Char) : similarityRatio s s = 1 := by
  unfold similarityRatio
  split
  · rfl
  · rename_i hne
    rw [matchTotal_self]
    have : (s.length : ℚ) ≠ 0 := by
      simp only [ne_eq, Nat.cast_eq_zero]
      omega
    field_simp
    ring

theorem calculateWordSimilarity_self (s : String) :
    calculateWordSimilarity s s = 1 := by
  unfold calculateWordSimilarity
  simp only [similarityRatio_self]
  simp

theorem similarityRatio_disjoint (a b : List Char)
    (h : ∀ c, c ∈ a → c ∉ b) (hne : a ≠ [] ∨ b ≠ []) :
    similarityRatio a b = 0 := by
  unfold similarityRatio
  rw [if_neg, matchTotal_disjoint a b h]
  · simp
  · rcases hne with hne | hne <;>
      (cases' Nat.eq_zero_or_pos (a.length + b.length) with h0 hpos
       · simp only [Nat.add_eq_zero] at h0
         first
           | exact absurd (List.length_eq_zero.mp h0.1) hne
           | exact absurd (List.length_eq_zero.mp h0.2) hne
       · omega)

theorem replaceAll_ne_nil (pat rep s : List Char) (hrep : rep ≠ []) (hs : s ≠ []) :
    replaceAll pat rep s ≠ [] := by
  cases s with
  | nil => exact absurd rfl hs
  | cons c rest =>
    show replaceAllFuel pat rep (c :: rest).length (c :: rest) ≠ []
    rw [List.length_cons, replaceAllFuel]
    split
    · simp [hrep]
    · simp

theorem applyPhoneticRules_ne_nil (w : List Char) (hw : w ≠ []) :
    applyPhoneticRules w ≠ [] := by
  unfold applyPhoneticRules phoneticRules
  simp only [List.foldl_cons, List.foldl_nil]
  apply replaceAll_ne_nil _ _ _ (by simp)
  apply replaceAll_ne_nil _ _ _ (by simp)
  apply replaceAll_ne_nil _ _ _ (by simp)
  apply replaceAll_ne_nil _ _ _ (by simp)
  exact replaceAll_ne_nil _ _ _ (by simp) hw

/-- C1: the recommendation composer is total — for every profile and
session history (and any behavior of the numeric and sampling
primitives) it returns an `AdaptiveRecommendation` value, and whenever
the `try` body fails at any step, the handler yields precisely the safe
default: fallback words `["mama", "papa", "air"]`, adjustment
`"maintain"`, no break, and a 10-minute session suggestion. -/
theorem claim_C1 :
    (∀ e : String, recommendationHandler (Except.error e) = fallbackRecommendation) ∧
    fallbackRecommendation.next_words = ["mama", "papa", "air"] ∧
    fallbackRecommendation.difficulty_adjustment = "maintain" ∧
    fallbackRecommendation.recommended_break = false ∧
    fallbackRecommendation.session_duration_suggestion = 10 ∧
    (∀ (sqrtQ : ℚ → ℚ) (pick : List String → Nat → List String)
       (profile : UserProfile) (sessions : List LearningSession),
      generateAdaptiveRecommendation sqrtQ pick profile sessions =
        recommendationHandler (tryGenerateRecommendation sqrtQ pick profile sessions)) :=
  ⟨fun _ => rfl, rfl, rfl, rfl, rfl, fun _ _ _ _ => rfl⟩

/-- C3 (counterexample): `"f"` and `"p"` share no characters after
normalization, yet the scorer returns similarity `1`, not `0`, because
the phonetic substitution `f → p` makes the adjusted strings equal. -/
theorem claim_C3_counterexample :
    (∀ c, c ∈ normalizedOf "f" → c ∉ normalizedOf "p") ∧
    calculateWordSimilarity "f" "p" = 1 ∧ (1 : ℚ) ≠ 0 := by
  refine ⟨by decide, ?_, by norm_num⟩
  have h1 : normalizedOf "f" = [ 'f'] := by decide
  have h2 : normalizedOf "p" = [ 'p'] := by decide
  have h3 : applyPhoneticRules [ 'f'] = [ 'p'] := by decide
  have h4 : applyPhoneticRules [ 'p'] = [ 'p'] := by decide
  have h5 : matchTotal [ 'f'] [ 'p'] = 0 := by decide
  simp only [calculateWordSimilarity, h1, h2, h3, h4, similarityRatio_self]
  unfold similarityRatio
  rw [if_neg (by decide), h5]
  norm_num

/-- C3 (amended): the zero-similarity guarantee additionally requires
the phonetic images to share no characters and at least one normalized
string to be nonempty; the identical-string guarantee holds as stated. -/
theorem claim_C3 :
    (∀ spoken target : String,
      (∀ c, c ∈ normalizedOf spoken → c ∉ normalizedOf target) →
      (∀ c, c ∈ applyPhoneticRules (normalizedOf spoken) →
          c ∉ applyPhoneticRules (normalizedOf target)) →
      (normalizedOf spoken ≠ [] ∨ normalizedOf target ≠ []) →
      calculateWordSimilarity spoken target = 0) ∧
    (∀ s : String, calculateWordSimilarity s s = 1) := by
  constructor
  · intro spoken target h1 h2 h3
    simp only [calculateWordSimilarity]
    rw [similarityRatio_disjoint _ _ h1 h3]
    rw [similarityRatio_disjoint _ _ h2 ?hne]
    case hne =>
      rcases h3 with h | h
      · exact Or.inl (applyPhoneticRules_ne_nil _ h)
      · exact Or.inr (applyPhoneticRules_ne_nil _ h)
    simp
  · exact calculateWordSimilarity_self

/-- C3 (witness): the amended theorem applied at `"b"` vs `"k"` (fully
disjoint, similarity `0`) and at the identical pair `"mama"`. -/
theorem claim_C3_witness :
    (∀ c, c ∈ normalizedOf "b" → c ∉ normalizedOf "k") ∧
    (∀ c, c ∈ applyPhoneticRules (normalizedOf "b") →
        c ∉ applyPhoneticRules (normalizedOf "k")) ∧
    (normalizedOf "b" ≠ [] ∨ normalizedOf "k" ≠ []) ∧
    calculateWordSimilarity "b" "k" = 0 ∧
    calculateWordSimilarity "mama" "mama" = 1 :=
  ⟨by decide, by decide, by decide,
   claim_C3.1 "b" "k" (by decide) (by decide) (by decide), claim_C3.2 "mama"⟩

/-- C9: `phonetic_accuracy = 0.7 * similarity + 0.3 * confidence`, hence
monotone in the confidence, and the concrete scenario `"mama"` vs
`"mama"` at confidence `0.95` yields similarity `1`, accuracy `0.985`,
and the perfect-tier feedback. -/
theorem claim_C9 :
    (∀ (s t : String) (c : ℚ),
      (analyzePronunciation s t c).phonetic_accuracy =
        0.7 * calculateWordSimilarity s t + 0.3 * c) ∧
    (∀ (s t : String) (c₁ c₂ : ℚ), c₁ ≤ c₂ →
      (analyzePronunciation s t c₁).phonetic_accuracy ≤
        (analyzePronunciation s t c₂).phonetic_accuracy) ∧
    ((analyzePronunciation "mama" "mama" 0.95).similarity_score = 1 ∧
     (analyzePronunciation "mama" "mama" 0.95).phonetic_accuracy = 0.985 ∧
     (analyzePronunciation "mama" "mama" 0.95).feedback =
       "Bagus sekali! Pengucapan sempurna! ðŸŒŸ") := by
  refine ⟨?_, ?_, ?_, ?_, ?_⟩
  · intro s t c
    simp only [analyzePronunciation]
    ring
  · intro s t c₁ c₂ hc
    simp only [analyzePronunciation]
    have h3 : (0.3 : ℚ) * c₁ ≤ 0.3 * c₂ := by nlinarith
    calc calculateWordSimilarity s t * 0.7 + c₁ * 0.3
        ≤ calculateWordSimilarity s t * 0.7 + c₂ * 0.3 := by nlinarith
      _ = calculateWordSimilarity s t * 0.7 + c₂ * 0.3 := rfl
  · simp only [analyzePronunciation, calculateWordSimilarity_self]
  · simp only [analyzePronunciation, calculateWordSimilarity_self]
    norm_num
  · simp only [analyzePronunciation, calculateWordSimilarity_self,
      generatePronunciationFeedback]
    norm_num

/-- C9 (witness): monotonicity instantiated at confidences `0.5 ≤ 0.9`
for `"mama"` vs `"papa"`. -/
theorem claim_C9_witness :
    (0.5 : ℚ) ≤ 0.9 ∧
    (analyzePronunciation "mama" "papa" 0.5).phonetic_accuracy ≤
      (analyzePronunciation "mama" "papa" 0.9).phonetic_accuracy :=
  ⟨by norm_num, claim_C9.2.1 "mama" "papa" 0.5 0.9 (by norm_num)⟩

theorem qmean_five (x1 x2 x3 x4 x5 : ℚ) :
    qmean [x1, x2, x3, x4, x5] = (x1 + x2 + x3 + x4 + x5) / 5 := by
  simp [qmean]
  ring_nf

theorem analyzeSessionPerformance_high (sqrtQ : ℚ → ℚ) (s : LearningSession)
    (hne : s.scores ≠ []) (hhigh : 0.9 < qmean s.scores) :
    (analyzeSessionPerformance sqrtQ s).average_score = qmean s.scores ∧
    (analyzeSessionPerformance sqrtQ s).difficulty_appropriateness = 0.3 ∧
    (analyzeSessionPerformance sqrtQ s).engagement_level = some s.engagement_level := by
  unfold analyzeSessionPerformance
  rw [if_neg hne]
  refine ⟨rfl, ?_, rfl⟩
  dsimp only
  rw [if_pos hhigh]

/-- C2 (counterexample): in the spec scenario D (five sessions whose
attempt scores average exactly `0.9` with engagement `0.8`), the state
machine answers `"maintain"`, not `"increase"`: an average of exactly
`0.9` falls in the `difficulty_appropriateness = 1.0` bucket (the
too-easy bucket needs a strictly greater average), so policy rule 1
does not fire. -/
theorem claim_C2_counterexample :
    qmean scenarioDSession.scores = 0.9 ∧
    scenarioDSession.engagement_level = 0.8 ∧
    scenarioDSessions.length = 5 ∧
    determineDifficultyAdjustment (fun q => q) scenarioDSessions
      DifficultyLevel.very_easy = "maintain" ∧
    ("maintain" : String) ≠ "increase" := by
  refine ⟨by norm_num [qmean, scenarioDSession, mkSession], rfl, rfl, ?_, by decide⟩
  norm_num [determineDifficultyAdjustment, analyzeSessionPerformance,
    collectEngagements, qmean, takeLast, scenarioDSessions, scenarioDSession,
    mkSession, varianceQ, slopeQ]

/-- C2 (amended): with each of the five sessions averaging strictly
above `0.9` (so that `difficulty_appropriateness` is `0.3`) and
engagement `0.8`, the state machine returns `"increase"` by its first
policy rule. -/
theorem claim_C2 (sqrtQ : ℚ → ℚ) (cur : DifficultyLevel)
    (s₁ s₂ s₃ s₄ s₅ : LearningSession)
    (h₁ : s₁.scores ≠ []) (g₁ : 0.9 < qmean s₁.scores) (e₁ : s₁.engagement_level = 0.8)
    (h₂ : s₂.scores ≠ []) (g₂ : 0.9 < qmean s₂.scores) (e₂ : s₂.engagement_level = 0.8)
    (h₃ : s₃.scores ≠ []) (g₃ : 0.9 < qmean s₃.scores) (e₃ : s₃.engagement_level = 0.8)
    (h₄ : s₄.scores ≠ []) (g₄ : 0.9 < qmean s₄.scores) (e₄ : s₄.engagement_level = 0.8)
    (h₅ : s₅.scores ≠ []) (g₅ : 0.9 < qmean s₅.scores) (e₅ : s₅.engagement_level = 0.8) :
    determineDifficultyAdjustment sqrtQ [s₁, s₂, s₃, s₄, s₅] cur = "increase" := by
  obtain ⟨a₁, d₁, n₁⟩ := analyzeSessionPerformance_high sqrtQ s₁ h₁ g₁
  obtain ⟨a₂, d₂, n₂⟩ := analyzeSessionPerformance_high sqrtQ s₂ h₂ g₂
  obtain ⟨a₃, d₃, n₃⟩ := analyzeSessionPerformance_high sqrtQ s₃ h₃ g₃
  obtain ⟨a₄, d₄, n₄⟩ := analyzeSessionPerformance_high sqrtQ s₄ h₄ g₄
  obtain ⟨a₅, d₅, n₅⟩ := analyzeSessionPerformance_high sqrtQ s₅ h₅ g₅
  have htl : takeLast 5 [s₁, s₂, s₃, s₄, s₅] = [s₁, s₂, s₃, s₄, s₅] := by
    simp [takeLast]
  unfold determineDifficultyAdjustment
  rw [if_neg (by simp), htl]
  simp only [List.map_cons, List.map_nil, collectEngagements,
    a₁, a₂, a₃, a₄, a₅, d₁, d₂, d₃, d₄, d₅, n₁, n₂, n₃, n₄, n₅,
    e₁, e₂, e₃, e₄, e₅]
  rw [if_pos]
  constructor
  · show (0.85 : ℚ) ≤ qmean [qmean s₁.scores, qmean s₂.scores, qmean s₃.scores,
      qmean s₄.scores, qmean s₅.scores]
    rw [qmean_five, le_div_iff₀ (by norm_num)]
    linarith [g₁, g₂, g₃, g₄, g₅]
  constructor
  · show (0.7 : ℚ) ≤ qmean [0.8, 0.8, 0.8, 0.8, 0.8]
    rw [qmean_five]
    norm_num
  · show qmean [(0.3 : ℚ), 0.3, 0.3, 0.3, 0.3] < 0.5
    rw [qmean_five]
    norm_num

/-- C2 (witness): the amended theorem at five sessions scoring `0.95`. -/
theorem claim_C2_witness :
    (mkSession [0.95] 0.8).scores ≠ [] ∧
    0.9 < qmean (mkSession [0.95] 0.8).scores ∧
    (mkSession [0.95] 0.8).engagement_level = 0.8 ∧
    determineDifficultyAdjustment (fun q => q)
      [mkSession [0.95] 0.8, mkSession [0.95] 0.8, mkSession [0.95] 0.8,
       mkSession [0.95] 0.8, mkSession [0.95] 0.8]
      DifficultyLevel.very_easy = "increase" := by
  have hne : (mkSession [0.95] 0.8).scores ≠ [] := by simp [mkSession]
  have hg : (0.9 : ℚ) < qmean (mkSession [0.95] 0.8).scores := by
    norm_num [qmean, mkSession]
  exact ⟨hne, hg, rfl,
    claim_C2 _ _ _ _ _ _ _ hne hg rfl hne hg rfl hne hg rfl hne hg rfl hne hg rfl⟩

/-- C5 (counterexample): with the mean engagement over the examined
sessions exactly `0.8`, the claim says the learning style is left
untouched, but the code (whose keep-branch needs strictly more than
`0.8`) forces it to `mixed`. -/
theorem claim_C5_counterexample :
    qmean ((takeLast 5 [mkSession [] 0.8]).map (·.engagement_level)) = 0.8 ∧
    (mkProfile LearningStyle.visual [] []).learning_style = LearningStyle.visual ∧
    (updateUserProfile 1 (mkProfile LearningStyle.visual [] [])
        [mkSession [] 0.8]).learning_style = LearningStyle.mixed := by
  refine ⟨by norm_num [qmean, takeLast, mkSession], rfl, ?_⟩
  norm_num [updateUserProfile, mkProfile, mkSession, qmean, takeLast,
    wordPerformanceOf]

/-- C5 (amended): the profile aggregator leaves `learning_style`
untouched exactly when the mean engagement over the last 5 examined
sessions is strictly above `0.8`, and forces `mixed` when it is `≤ 0.8`
(the claim drew the boundary at `≥ 0.8` versus `< 0.8`). -/
theorem claim_C5 (now : Nat) (profile : UserProfile)
    (sessions : List LearningSession) (hne : sessions ≠ []) :
    (0.8 < qmean ((takeLast 5 sessions).map (·.engagement_level)) →
      (updateUserProfile now profile sessions).learning_style =
        profile.learning_style) ∧
    (qmean ((takeLast 5 sessions).map (·.engagement_level)) ≤ 0.8 →
      (updateUserProfile now profile sessions).learning_style =
        LearningStyle.mixed) := by
  unfold updateUserProfile
  rw [if_neg hne]
  constructor
  · intro h
    dsimp only
    rw [if_pos h]
  · intro h
    dsimp only
    rw [if_neg (not_lt.mpr h)]
    by_cases hst : profile.learning_style = LearningStyle.mixed
    · rw [if_neg (by simp [hst])]
      exact hst
    · rw [if_pos hst]

/-- C5 (witness): the amended theorem at a single high-engagement
session (style kept) and a single `0.8`-engagement session (style
forced to mixed). -/
theorem claim_C5_witness :
    ([mkSession [] 0.9] : List LearningSession) ≠ [] ∧
    0.8 < qmean ((takeLast 5 [mkSession [] 0.9]).map (·.engagement_level)) ∧
    (updateUserProfile 1 (mkProfile LearningStyle.visual [] [])
        [mkSession [] 0.9]).learning_style = LearningStyle.visual ∧
    qmean ((takeLast 5 [mkSession [] 0.8]).map (·.engagement_level)) ≤ 0.8 ∧
    (updateUserProfile 1 (mkProfile LearningStyle.auditory [] [])
        [mkSession [] 0.8]).learning_style = LearningStyle.mixed := by
  have h1 : (0.8 : ℚ) <
      qmean ((takeLast 5 [mkSession [] 0.9]).map (·.engagement_level)) := by
    norm_num [qmean, takeLast, mkSession]
  have h2 : qmean ((takeLast 5 [mkSession [] 0.8]).map (·.engagement_level)) ≤
      (0.8 : ℚ) := by
    norm_num [qmean, takeLast, mkSession]
  exact ⟨by simp, h1, (claim_C5 1 _ _ (by simp)).1 h1, h2,
    (claim_C5 1 _ _ (by simp)).2 h2⟩

/-- C6 (counterexample): on a zero-attempt session the analyzer returns
the four-field record `{0, 0, 0, 0.5}` with NO `engagement_level` key
(`none`), not the five-field record the claim asserts. -/
theorem claim_C6_counterexample :
    (mkSession [] 0.7).scores = [] ∧
    (analyzeSessionPerformance (fun q => q) (mkSession [] 0.7)).average_score = 0 ∧
    (analyzeSessionPerformance (fun q => q) (mkSession [] 0.7)).consistency = 0 ∧
    (analyzeSessionPerformance (fun q => q) (mkSession [] 0.7)).improvement_trend = 0 ∧
    (analyzeSessionPerformance (fun q => q)
        (mkSession [] 0.7)).difficulty_appropriateness = 0.5 ∧
    (analyzeSessionPerformance (fun q => q) (mkSession [] 0.7)).engagement_level =
      none := by
  refine ⟨rfl, ?_, ?_, ?_, ?_, ?_⟩ <;> simp [analyzeSessionPerformance, mkSession]

/-- C6 (amended): on every zero-attempt session the analyzer returns
exactly `average_score 0`, `consistency 0`, `improvement_trend 0`,
`difficulty_appropriateness 0.5`, and omits the `engagement_level`
key. -/
theorem claim_C6 (sqrtQ : ℚ → ℚ) (session : LearningSession)
    (h : session.scores = []) :
    analyzeSessionPerformance sqrtQ session =
      { average_score := 0, consistency := 0, improvement_trend := 0,
        difficulty_appropriateness := 0.5, engagement_level := none } := by
  unfold analyzeSessionPerformance
  rw [if_pos h]

/-- C6 (witness): the amended theorem at a concrete empty session. -/
theorem claim_C6_witness :
    (mkSession [] 0.7).scores = [] ∧
    analyzeSessionPerformance (fun q => q) (mkSession [] 0.7) =
      { average_score := 0, consistency := 0, improvement_trend := 0,
        difficulty_appropriateness := 0.5, engagement_level := none } :=
  ⟨rfl, claim_C6 _ _ rfl⟩

theorem collectEngagements_none (l : List SessionMetrics)
    (h : ∃ m ∈ l, m.engagement_level = none) : collectEngagements l = none := by
  induction l with
  | nil => simp at h
  | cons m ms ih =>
    obtain ⟨m', hm', hnone⟩ := h
    simp only [List.mem_cons] at hm'
    rcases hm' with rfl | hm'
    · rw [collectEngagements, hnone]
    · rw [collectEngagements, ih ⟨m', hm', hnone⟩]
      cases m.engagement_level <;> rfl

/-- C10: whenever some of the last 5 sessions has an empty attempt list,
its metrics dict lacks the `engagement_level` key, the averaging step
raises `KeyError`, and the `except` clause returns `"maintain"`
regardless of every other session. -/
theorem claim_C10 (sqrtQ : ℚ → ℚ) (sessions : List LearningSession)
    (cur : DifficultyLevel) (hne : sessions ≠ [])
    (h : ∃ s ∈ takeLast 5 sessions, s.scores = []) :
    determineDifficultyAdjustment sqrtQ sessions cur = "maintain" := by
  obtain ⟨s, hs, hscore⟩ := h
  have hnone : (analyzeSessionPerformance sqrtQ s).engagement_level = none := by
    unfold analyzeSessionPerformance
    rw [if_pos hscore]
  have hcoll : collectEngagements
      ((takeLast 5 sessions).map (analyzeSessionPerformance sqrtQ)) = none :=
    collectEngagements_none _ ⟨_, List.mem_map_of_mem _ hs, hnone⟩
  unfold determineDifficultyAdjustment
  rw [if_neg hne]
  dsimp only
  rw [hcoll]

/-- C10 (witness): a two-session history whose first session has no
attempts yields `"maintain"` even though the other session scores
`0.95` at engagement `0.8`. -/
theorem claim_C10_witness :
    ([mkSession [] 0.9, mkSession [0.95] 0.8] : List LearningSession) ≠ [] ∧
    mkSession [] 0.9 ∈ takeLast 5 [mkSession [] 0.9, mkSession [0.95] 0.8] ∧
    (mkSession [] 0.9).scores = [] ∧
    determineDifficultyAdjustment (fun q => q)
      [mkSession [] 0.9, mkSession [0.95] 0.8] DifficultyLevel.easy =
      "maintain" := by
  have hmem : mkSession [] 0.9 ∈ takeLast 5 [mkSession [] 0.9, mkSession [0.95] 0.8] := by
    show mkSession [] 0.9 ∈ [mkSession [] 0.9, mkSession [0.95] 0.8]
    simp
  exact ⟨by simp, hmem, rfl,
    claim_C10 _ _ _ (by simp) ⟨mkSession [] 0.9, hmem, rfl⟩⟩

theorem enum_map_notSpoken (ts : List String) :
    ts.enum.map (fun p => notSpokenResult p.2) = ts.map notSpokenResult := by
  rw [show (fun p : Nat × String => notSpokenResult p.2) =
    notSpokenResult ∘ Prod.snd from rfl, ← List.map_map, List.enum_map_snd]

/-- C4 (counterexample): an empty transcript reaches the engine only as
the transcription provider's no-speech sentinel, which carries an
`error` key, and on that input the whole-utterance analysis returns NO
per-word results (zero attempts), not the three zero-scored
`PronunciationResult`s the claim asserts. -/
theorem claim_C4_counterexample :
    noSpeechResult.transcript = "" ∧
    (analyzeSpeechComprehensive noSpeechResult
        ["mama", "papa", "air"]).pronunciation_results.length = 0 ∧
    (0 : Nat) ≠ 3 := by
  refine ⟨rfl, ?_, by decide⟩
  rfl

/-- C4 (amended): on a transcription result carrying an error sentinel
(the only way the pipeline produces an empty transcript) the analysis
returns zero per-word results, overall score `0`, and the cannot-hear
feedback; and on a hypothetical error-free transcription whose
transcript normalizes to no words, each target word would get the
zero-scored "not yet spoken" result with overall score `0`. -/
theorem claim_C4 :
    (∀ (tr : TranscriptionResult) (targets : List String), tr.error.isSome →
      analyzeSpeechComprehensive tr targets = transcriptionErrorAnalysis) ∧
    transcriptionErrorAnalysis.pronunciation_results = [] ∧
    transcriptionErrorAnalysis.overall_score = 0 ∧
    noSpeechResult.transcript = "" ∧
    noSpeechResult.error.isSome = true ∧
    (∀ w : String, (notSpokenResult w).similarity_score = 0 ∧
      (notSpokenResult w).phonetic_accuracy = 0 ∧
      (notSpokenResult w).feedback = "Kata \x27" ++ w ++ "\x27 belum diucapkan") ∧
    (∀ (tr : TranscriptionResult) (targets : List String), tr.error = none →
      normalizeText tr.transcript.data = [] →
      (analyzeSpeechComprehensive tr targets).pronunciation_results =
        targets.map notSpokenResult ∧
      (analyzeSpeechComprehensive tr targets).overall_score = 0) := by
  refine ⟨?_, rfl, rfl, rfl, rfl, fun w => ⟨rfl, rfl, rfl⟩, ?_⟩
  · intro tr targets herr
    unfold analyzeSpeechComprehensive
    rw [if_pos herr]
  · intro tr targets herr hnorm
    unfold analyzeSpeechComprehensive
    rw [if_neg (by simp [herr])]
    dsimp only
    rw [hnorm]
    have hsplit : splitWords ([] : List Char) = [] := rfl
    rw [hsplit]
    have hres : targets.enum.map (fun p =>
        match ([] : List (List Char)).get? p.1 with
        | some sw => analyzePronunciation (String.mk sw) p.2
            (wordConfidenceFor tr (String.mk sw))
        | none => notSpokenResult p.2) = targets.map notSpokenResult := by
      rw [← enum_map_notSpoken]
      apply List.map_congr_left
      intro p _
      simp
    rw [hres]
    refine ⟨rfl, ?_⟩
    have hzero : ((targets.map notSpokenResult).map (·.phonetic_accuracy)).sum = 0 := by
      rw [List.map_map]
      have hcomp : (fun r => PronunciationResult.phonetic_accuracy r) ∘ notSpokenResult =
          fun _ => (0 : ℚ) := rfl
      rw [hcomp]
      simp
    rw [hzero]
    split
    · exact zero_div _
    · rfl

/-- C4 (witness): the amended theorem at the no-speech sentinel with
three target words, and at an error-free empty transcript with the same
targets. -/
theorem claim_C4_witness :
    noSpeechResult.error.isSome = true ∧
    analyzeSpeechComprehensive noSpeechResult ["mama", "papa", "air"] =
      transcriptionErrorAnalysis ∧
    (({ transcript := "", confidence := 0, words := [], error := none } :
        TranscriptionResult).error = none) ∧
    normalizeText (String.data "") = [] ∧
    (analyzeSpeechComprehensive
        { transcript := "", confidence := 0, words := [], error := none }
        ["mama", "papa", "air"]).pronunciation_results =
      ["mama", "papa", "air"].map notSpokenResult ∧
    (analyzeSpeechComprehensive
        { transcript := "", confidence := 0, words := [], error := none }
        ["mama", "papa", "air"]).overall_score = 0 := by
  obtain ⟨hres, hscore⟩ := claim_C4.2.2.2.2.2.2
    { transcript := "", confidence := 0, words := [], error := none }
    ["mama", "papa", "air"] rfl rfl
  exact ⟨rfl, claim_C4.1 noSpeechResult ["mama", "papa", "air"] rfl, rfl, rfl,
    hres, hscore⟩

theorem addScore_keys (wp : List (String × List ℚ)) (w : String) (sc : ℚ) :
    (addScore wp w sc).map Prod.fst =
      if w ∈ wp.map Prod.fst then wp.map Prod.fst else wp.map Prod.fst ++ [w] := by
  induction wp with
  | nil => simp [addScore]
  | cons e rest ih =>
    obtain ⟨w', scs⟩ := e
    simp only [addScore]
    by_cases hw : w' = w
    · subst hw
      simp
    · rw [if_neg hw]
      simp only [List.map_cons, ih]
      by_cases hmem : w ∈ rest.map Prod.fst
      · rw [if_pos hmem, if_pos (by simp [hmem])]
      · rw [if_neg hmem, if_neg (by simp [hmem, Ne.symm hw])]
        simp

theorem addScore_keys_nodup (wp : List (String × List ℚ)) (w : String) (sc : ℚ)
    (h : (wp.map Prod.fst).Nodup) : ((addScore wp w sc).map Prod.fst).Nodup := by
  rw [addScore_keys]
  split
  · exact h
  · rename_i hmem
    simp [List.nodup_append, h, hmem]

theorem wordPerformance_keys_nodup (examined : List LearningSession) :
    ((wordPerformanceOf examined).map Prod.fst).Nodup := by
  unfold wordPerformanceOf
  apply foldl_invariant
    (P := fun wp : List (String × List ℚ) => (wp.map Prod.fst).Nodup)
  · simp
  · intro wp s _ hwp
    apply foldl_invariant
      (P := fun wp : List (String × List ℚ) => (wp.map Prod.fst).Nodup)
    · exact hwp
    · intro wp p _ h
      exact addScore_keys_nodup _ _ _ h

theorem eq_of_mem_of_keys_nodup {wp : List (String × List ℚ)} {w : String}
    {v v' : List ℚ} (hnd : (wp.map Prod.fst).Nodup)
    (h1 : (w, v) ∈ wp) (h2 : (w, v') ∈ wp) : v = v' := by
  induction wp with
  | nil => simp at h1
  | cons e rest ih =>
    obtain ⟨w₁, v₁⟩ := e
    simp only [List.map_cons, List.nodup_cons] at hnd
    simp only [List.mem_cons, Prod.mk.injEq] at h1 h2
    rcases h1 with ⟨hw1, hv1⟩ | h1
    · rcases h2 with ⟨hw2, hv2⟩ | h2
      · rw [hv1, hv2]
      · exfalso
        apply hnd.1
        rw [← hw1]
        exact List.mem_map_of_mem Prod.fst h2
    · rcases h2 with ⟨hw2, hv2⟩ | h2
      · exfalso
        apply hnd.1
        rw [← hw2]
        exact List.mem_map_of_mem Prod.fst h1
      · exact ih hnd.2 h1 h2

theorem takeLast_length_le {α : Type} (n : Nat) (l : List α) :
    (takeLast n l).length ≤ n := by
  simp only [takeLast, List.length_drop]
  omega

theorem takeLast_subset {α : Type} (n : Nat) (l : List α) :
    ∀ x ∈ takeLast n l, x ∈ l := by
  intro x hx
  exact List.mem_of_mem_drop hx

/-- C7 (counterexample): with an empty session list the aggregator
returns the input profile unchanged, so a profile whose lists already
overlap keeps `"mama"` in both `strengths` and `weaknesses` after the
call. -/
theorem claim_C7_counterexample :
    (updateUserProfile 1 (mkProfile LearningStyle.visual ["mama"] ["mama"])
        []).strengths = ["mama"] ∧
    (updateUserProfile 1 (mkProfile LearningStyle.visual ["mama"] ["mama"])
        []).weaknesses = ["mama"] ∧
    "mama" ∈ (updateUserProfile 1 (mkProfile LearningStyle.visual ["mama"] ["mama"])
        []).strengths ∧
    "mama" ∈ (updateUserProfile 1 (mkProfile LearningStyle.visual ["mama"] ["mama"])
        []).weaknesses := by
  have h1 : (updateUserProfile 1 (mkProfile LearningStyle.visual ["mama"] ["mama"])
      []).strengths = ["mama"] := rfl
  have h2 : (updateUserProfile 1 (mkProfile LearningStyle.visual ["mama"] ["mama"])
      []).weaknesses = ["mama"] := rfl
  refine ⟨h1, h2, ?_, ?_⟩
  · rw [h1]
    simp
  · rw [h2]
    simp

/-- C7 (amended): after every `update_user_profile` call with a
NON-EMPTY session list, the rebuilt `strengths` and `weaknesses` lists
are disjoint and each contains at most 20 entries (the most recent
ones); with an empty session list the input profile passes through
unmodified. -/
theorem claim_C7 (now : Nat) (profile : UserProfile)
    (sessions : List LearningSession) (hne : sessions ≠ []) :
    (∀ w, w ∈ (updateUserProfile now profile sessions).strengths →
      w ∉ (updateUserProfile now profile sessions).weaknesses) ∧
    (updateUserProfile now profile sessions).strengths.length ≤ 20 ∧
    (updateUserProfile now profile sessions).weaknesses.length ≤ 20 := by
  unfold updateUserProfile
  rw [if_neg hne]
  dsimp only
  refine ⟨?_, takeLast_length_le _ _, takeLast_length_le _ _⟩
  intro w hs hw
  have hs' := takeLast_subset _ _ _ hs
  have hw' := takeLast_subset _ _ _ hw
  simp only [List.mem_map, List.mem_filter] at hs' hw'
  obtain ⟨⟨w1, v⟩, ⟨hv, hp⟩, hw1⟩ := hs'
  obtain ⟨⟨w2, v'⟩, ⟨hv', hq⟩, hw2⟩ := hw'
  have hkey : w1 = w2 := by rw [show w1 = w from hw1, show w2 = w from hw2]
  subst hkey
  have hvv : v = v' :=
    eq_of_mem_of_keys_nodup (wordPerformance_keys_nodup _) hv hv'
  subst hvv
  simp only [decide_eq_true_eq] at hp hq
  exact hq.1 hp

/-- C7 (witness): the amended theorem at a concrete profile and a
non-empty session list. -/
theorem claim_C7_witness :
    ([mkSession [] 0.8] : List LearningSession) ≠ [] ∧
    ¬ ("mama" ∈ (updateUserProfile 1
          (mkProfile LearningStyle.visual ["mama"] ["mama"])
          [mkSession [] 0.8]).strengths ∧
       "mama" ∈ (updateUserProfile 1
          (mkProfile LearningStyle.visual ["mama"] ["mama"])
          [mkSession [] 0.8]).weaknesses) ∧
    (updateUserProfile 1 (mkProfile LearningStyle.visual ["mama"] ["mama"])
        [mkSession [] 0.8]).strengths.length ≤ 20 ∧
    (updateUserProfile 1 (mkProfile LearningStyle.visual ["mama"] ["mama"])
        [mkSession [] 0.8]).weaknesses.length ≤ 20 := by
  have h := claim_C7 1 (mkProfile LearningStyle.visual ["mama"] ["mama"])
    [mkSession [] 0.8] (by simp)
  exact ⟨by simp, fun hc => h.1 "mama" hc.1 hc.2, h.2.1, h.2.2⟩

theorem subperm_nodup {l₁ l₂ : List String} (h : List.Subperm l₁ l₂) (h₂ : l₂.Nodup) :
    l₁.Nodup := by
  obtain ⟨l, hperm, hsub⟩ := h
  exact hperm.nodup_iff.mp (h₂.sublist hsub)

theorem allWordsFor_nodup (d : DifficultyLevel) : (allWordsFor d).Nodup := by
  cases d <;> decide

theorem append_nodup_take (count : Nat) (l₁ l₂ : List String)
    (h₁ : l₁.Nodup) (h₂ : l₂.Nodup) (hd : ∀ x ∈ l₂, x ∉ l₁) :
    ((l₁ ++ l₂).take count).Nodup := by
  apply List.Nodup.sublist (List.take_sublist _ _)
  exact List.Nodup.append h₁ h₂ (fun a ha hb => hd a hb ha)

theorem take_append_mem_left (count : Nat) (l₁ l₂ : List String) (h : l₁ ≠ [])
    (hc : 1 ≤ count) : ∃ w ∈ (l₁ ++ l₂).take count, w ∈ l₁ := by
  cases count with
  | zero => omega
  | succ n =>
    cases l₁ with
    | nil => exact absurd rfl h
    | cons a t =>
      refine ⟨a, ?_, by simp⟩
      simp [List.take_succ_cons]

theorem select_branch_close (count : Nat) (hc : 1 ≤ count)
    (weaknesses pr sel₁ tail : List String)
    (hsel_nd : sel₁.Nodup) (htl_nd : tail.Nodup)
    (hdisj : ∀ x ∈ tail, x ∉ sel₁)
    (hsel_sub : ∀ x ∈ sel₁, x ∈ pr)
    (hpr_sub : ∀ x ∈ pr, x ∈ weaknesses)
    (hish : 3 ≤ count → pr ≠ [] → sel₁ ≠ []) :
    ((sel₁ ++ tail).take count).Nodup ∧
    ((sel₁ ++ tail).take count).length ≤ count ∧
    (3 ≤ count → pr ≠ [] →
      ∃ w ∈ (sel₁ ++ tail).take count, w ∈ weaknesses) := by
  refine ⟨append_nodup_take count sel₁ tail hsel_nd htl_nd hdisj, ?_, ?_⟩
  · rw [List.length_take]
    omega
  · intro h3 hpr
    obtain ⟨w, hwin, hwsel⟩ :=
      take_append_mem_left count sel₁ tail (hish h3 hpr) hc
    exact ⟨w, hwin, hpr_sub w (hsel_sub w hwsel)⟩

/-- C8 (amended): for every sampling outcome obeying the
without-replacement contract and every profile whose `weaknesses` list
has no duplicate words, the sampler returns a duplicate-free list of at
most `N` words, and when `N ≥ 3` and some weak word is in the candidate
pool outside `strengths`, at least one weak word is included.  (A
profile with a duplicated weak word can legally be sampled into a
duplicated output, which is what the counterexample exhibits.) -/
theorem claim_C8 (pick : List String → Nat → List String)
    (hpick : ∀ pool k, k ≤ pool.length →
      (pick pool k).length = k ∧ List.Subperm (pick pool k) pool)
    (profile : UserProfile) (hw : profile.weaknesses.Nodup)
    (difficulty : DifficultyLevel) (count : Nat) (hc : 1 ≤ count) :
    (selectNextWords pick profile difficulty count).Nodup ∧
    (selectNextWords pick profile difficulty count).length ≤ count ∧
    (3 ≤ count →
      (∃ w ∈ profile.weaknesses, w ∈ candidateWords profile difficulty) →
      ∃ w ∈ selectNextWords pick profile difficulty count,
        w ∈ profile.weaknesses) := by
  have hall : (allWordsFor difficulty).Nodup := allWordsFor_nodup difficulty
  have hcand : (candidateWords profile difficulty).Nodup := hall.filter _
  have hprnd : (priorityWords profile difficulty).Nodup := hw.filter _
  have hpr_sub : ∀ x ∈ priorityWords profile difficulty, x ∈ profile.weaknesses := by
    intro x hx
    exact (List.mem_filter.mp hx).1
  have hpr_ne : (∃ w ∈ profile.weaknesses, w ∈ candidateWords profile difficulty) →
      priorityWords profile difficulty ≠ [] := by
    rintro ⟨w, hw1, hw2⟩
    have : w ∈ priorityWords profile difficulty :=
      List.mem_filter.mpr ⟨hw1, by simpa using hw2⟩
    exact List.ne_nil_of_mem this
  unfold selectNextWords
  dsimp only
  set pr := priorityWords profile difficulty with hpr_def
  set rc := min pr.length (max 1 (count / 3)) with hrc_def
  set sel₁ := (if pr ≠ [] then pick pr rc else []) with hsel_def
  have hsel_nd : sel₁.Nodup := by
    rw [hsel_def]
    split
    · exact subperm_nodup (hpick pr rc (min_le_left _ _)).2 hprnd
    · exact List.nodup_nil
  have hsel_sub : ∀ x ∈ sel₁, x ∈ pr := by
    rw [hsel_def]
    split
    · exact fun x hx => (hpick pr rc (min_le_left _ _)).2.subset hx
    · intro x hx
      simp at hx
  have hish : 3 ≤ count → pr ≠ [] → sel₁ ≠ [] := by
    intro _ hne
    rw [hsel_def, if_pos hne]
    have hlen : (pick pr rc).length = rc := (hpick pr rc (min_le_left _ _)).1
    have hrc1 : 1 ≤ rc := by
      rw [hrc_def]
      have : 1 ≤ pr.length := List.length_pos.mpr hne
      omega
    intro hnil
    rw [hnil] at hlen
    simp at hlen
    omega
  set nw := (candidateWords profile difficulty).filter (fun w => w ∉ sel₁) with hnw_def
  have hnw_nd : nw.Nodup := hcand.filter _
  have hnw_disj : ∀ x ∈ nw, x ∉ sel₁ := by
    intro x hx
    have := (List.mem_filter.mp hx).2
    simpa using this
  have close : ∀ tail : List String, tail.Nodup → (∀ x ∈ tail, x ∉ sel₁) →
      ((sel₁ ++ tail).take count).Nodup ∧
      ((sel₁ ++ tail).take count).length ≤ count ∧
      (3 ≤ count →
        (∃ w ∈ profile.weaknesses, w ∈ candidateWords profile difficulty) →
        ∃ w ∈ (sel₁ ++ tail).take count, w ∈ profile.weaknesses) := by
    intro tail hnd hdisj
    obtain ⟨x1, x2, x3⟩ := select_branch_close count hc profile.weaknesses pr
      sel₁ tail hsel_nd hnd hdisj hsel_sub hpr_sub hish
    exact ⟨x1, x2, fun h3 hex => x3 h3 (hpr_ne hex)⟩
  by_cases hbr : count - sel₁.length ≤ nw.length
  · rw [if_pos hbr]
    have h2 := hpick nw (count - sel₁.length) hbr
    exact close _ (subperm_nodup h2.2 hnw_nd)
      (fun x hx => hnw_disj x (h2.2.subset hx))
  · rw [if_neg hbr]
    have hs_nd : (sel₁ ++ nw).Nodup :=
      List.Nodup.append hsel_nd hnw_nd (fun a ha hb => hnw_disj a hb ha)
    by_cases hlen : (sel₁ ++ nw).length < count
    · rw [if_pos hlen]
      set additional := (allWordsFor difficulty).filter
        (fun w => w ∉ sel₁ ++ nw) with hadd_def
      have hadd_nd : additional.Nodup := hall.filter _
      by_cases hadd : additional ≠ []
      · rw [if_pos hadd]
        set m := min (count - (sel₁ ++ nw).length) additional.length with hm_def
        have h3 := hpick additional m (by rw [hm_def]; exact min_le_right _ _)
        have htl_nd : (nw ++ pick additional m).Nodup := by
          apply List.Nodup.append hnw_nd (subperm_nodup h3.2 hadd_nd)
          intro a ha hb
          have hmem := (List.mem_filter.mp (h3.2.subset hb)).2
          simp only [decide_not, List.mem_append, Bool.not_eq_eq_eq_not,
            Bool.not_true, decide_eq_false_iff_not] at hmem
          exact hmem (Or.inr ha)
        have htl_disj : ∀ x ∈ nw ++ pick additional m, x ∉ sel₁ := by
          intro x hx
          rcases List.mem_append.mp hx with hx | hx
          · exact hnw_disj x hx
          · have hmem := (List.mem_filter.mp (h3.2.subset hx)).2
            simp only [decide_not, List.mem_append, Bool.not_eq_eq_eq_not,
              Bool.not_true, decide_eq_false_iff_not] at hmem
            exact fun hin => hmem (Or.inl hin)
        rw [List.append_assoc]
        exact close _ htl_nd htl_disj
      · rw [if_neg hadd]
        exact close _ hnw_nd hnw_disj
    · rw [if_neg hlen]
      exact close _ hnw_nd hnw_disj

theorem pickTake_spec : ∀ (pool : List String) (k : Nat), k ≤ pool.length →
    (pickTake pool k).length = k ∧ List.Subperm (pickTake pool k) pool := by
  intro pool k hk
  refine ⟨?_, (List.take_sublist k pool).subperm⟩
  rw [pickTake, List.length_take]
  omega

/-- C8 (counterexample): `pickTake` obeys the sampling contract, yet a
profile whose `weaknesses` list repeats `"air"` makes the sampler
return a 6-word batch containing `"air"` twice. -/
theorem claim_C8_counterexample :
    (∀ (pool : List String) (k : Nat), k ≤ pool.length →
      (pickTake pool k).length = k ∧ List.Subperm (pickTake pool k) pool) ∧
    ¬ (selectNextWords pickTake
        (mkProfile LearningStyle.visual [] ["air", "air"])
        DifficultyLevel.very_easy 6).Nodup :=
  ⟨pickTake_spec, by decide⟩

/-- C8 (witness): the amended theorem at the deterministic sampler and
a profile with the single weak word `"air"`, requesting 5 words. -/
theorem claim_C8_witness :
    (mkProfile LearningStyle.visual [] ["air"]).weaknesses.Nodup ∧
    (1 : Nat) ≤ 5 ∧
    (selectNextWords pickTake (mkProfile LearningStyle.visual [] ["air"])
        DifficultyLevel.very_easy 5).Nodup ∧
    (selectNextWords pickTake (mkProfile LearningStyle.visual [] ["air"])
        DifficultyLevel.very_easy 5).length ≤ 5 ∧
    "air" ∈ selectNextWords pickTake (mkProfile LearningStyle.visual [] ["air"])
        DifficultyLevel.very_easy 5 ∧
    "air" ∈ (mkProfile LearningStyle.visual [] ["air"]).weaknesses := by
  have h := claim_C8 pickTake pickTake_spec
    (mkProfile LearningStyle.visual [] ["air"]) (by decide)
    DifficultyLevel.very_easy 5 (by norm_num)
  exact ⟨by decide, by norm_num, h.1, h.2.1, by decide, by decide⟩
